import Mathlib

/-!
Verification of the stage-2 online chat messenger server
(`OnlineChatMessanger/stage 2/server.py`).

Shallow embedding conventions:
* Python `bytes` values are `List Nat` (each element < 256 for real inputs).
* Python `str` values obtained by UTF-8 decoding are modelled by the byte
  string they decode from, together with the fact that decoding succeeded
  (`validUtf8`).  For a valid UTF-8 byte string, Python's
  `b.decode('utf-8').encode('utf-8') == b`, and `len(b.decode('utf-8'))`
  equals the number of non-continuation bytes of `b` (`charCount`).
  Equality of decoded strings coincides with equality of the byte strings.
* A peer address `(ip, port)` is `List Char × Nat` (the ip is the string
  Python reports as `addr[0]`).
* The module-level dictionary `chat_rooms` (room name → ordered member
  list, each member a `(token, addr)` pair) is an insertion-ordered
  association list `Registry`.  The `clients` dictionary is declared in the
  source but never written to, so it does not appear in the model.
* The handlers become pure state-transition functions: the TCP admission
  handler returns the new registry and the reply written to the stream,
  and the UDP handler returns the registry (which it never mutates) and
  the ordered list of `(destination address, datagram payload)` pairs
  passed to `sendto`.  An exception raised inside a handler is caught by
  the surrounding `except`, producing no reply and no state change.
-/

/-- A peer address as Python reports it: `(ip string, port)`. -/
abbrev Addr : Type := List Char × Nat

/-- One entry of a room's member list: the minted token (a Python `str`,
modelled as its character list) and the address recorded for the member. -/
structure Member where
  token : List Char
  addr : Addr
deriving DecidableEq

/-- The `chat_rooms` dictionary: room name (UTF-8 bytes of the key string)
to the ordered list of members, in insertion order. -/
abbrev Registry : Type := List (List Nat × List Member)

/-- The empty `chat_rooms` dictionary at server start. -/
def emptyRegistry : Registry := []

/-- Dictionary lookup `chat_rooms[name]` / membership test `name in chat_rooms`. -/
def findRoom : Registry → List Nat → Option (List Member)
  | [], _ => none
  | (n, ms) :: rest, name => if n = name then some ms else findRoom rest name

/-- Replacing the member list stored under an existing key, preserving
dictionary insertion order (Python list mutation via `append`). -/
def setRoom : Registry → List Nat → List Member → Registry
  | [], _, _ => []
  | (n, l) :: rest, name, ms =>
    if n = name then (name, ms) :: setRoom rest name ms
    else (n, l) :: setRoom rest name ms

/-- The decimal digit character `Nat.digitChar`-style used by Python's
string formatting of an `int` (only applied to values below 10). -/
def digitChar (n : Nat) : Char := Char.ofNat (48 + n)

/-- Fuel-indexed decimal digits; the fuel only forces structural
termination and is irrelevant once it exceeds the argument. -/
def natReprAux : Nat → Nat → List Char
  | 0, _ => []
  | fuel + 1, n =>
    if n < 10 then [digitChar n]
    else natReprAux fuel (n / 10) ++ [digitChar (n % 10)]

/-- Decimal representation of a natural number as Python's f-string
interpolation `f"{n}"` produces it. -/
def natRepr (n : Nat) : List Char := natReprAux (n + 1) n

/-- The host token `f"host_{addr[0]}"` minted on CREATE. -/
def hostTok (ip : List Char) : List Char :=
  'h' :: 'o' :: 's' :: 't' :: '_' :: ip

/-- The guest token `f"guest_{addr[0]}_{len(chat_rooms[room_name])}"`
minted on JOIN, where `n` is the member count at join time. -/
def guestTok (ip : List Char) (n : Nat) : List Char :=
  'g' :: 'u' :: 'e' :: 's' :: 't' :: '_' :: (ip ++ '_' :: natRepr n)

/-- Continuation byte of UTF-8 (`0b10xxxxxx`). -/
def isCont (b : Nat) : Bool := 128 ≤ b && b < 192

/-- Strict UTF-8 validity as Python's `bytes.decode('utf-8')` checks it
(continuation counts, no overlong forms, no surrogates, max U+10FFFF). -/
def validUtf8 : List Nat → Bool
  | [] => true
  | b :: rest =>
    if b < 128 then validUtf8 rest
    else if b < 194 then false
    else if b < 224 then
      match rest with
      | c1 :: r => isCont c1 && validUtf8 r
      | [] => false
    else if b < 240 then
      match rest with
      | c1 :: c2 :: r =>
        (if b = 224 then 160 ≤ c1 else true) &&
        (if b = 237 then c1 < 160 else true) &&
        isCont c1 && isCont c2 && validUtf8 r
      | _ => false
    else if b < 245 then
      match rest with
      | c1 :: c2 :: c3 :: r =>
        (if b = 240 then 144 ≤ c1 else true) &&
        (if b = 244 then c1 < 144 else true) &&
        isCont c1 && isCont c2 && isCont c3 && validUtf8 r
      | _ => false
    else false

/-- `len(b.decode('utf-8'))` for valid UTF-8 bytes `b`: the number of
non-continuation bytes, i.e. the number of decoded code points. -/
def charCount (bs : List Nat) : Nat :=
  bs.countP (fun b => !isCont b)

/-- Replies the TCP admission handler writes with `conn.sendall`
(successful replies carry the minted token: `b"Room created " + token`,
`b"Joined room " + token`). -/
inductive Reply where
  | roomCreated (tok : List Char)
  | roomAlreadyExists
  | joined (tok : List Char)
  | roomNotFound
deriving DecidableEq

/-- The registry transition and reply of `handle_tcp_connection` once the
frame has been parsed into `(operation_code, room_name, peer address)`.
Mirrors the `if operation_code == 1 / elif operation_code == 2` branches;
any other opcode falls through with no reply and no mutation. -/
def applyAdmission (reg : Registry) (opc : Nat) (room : List Nat) (a : Addr) :
    Registry × Option Reply :=
  if opc = 1 then
    match findRoom reg room with
    | none =>
      (reg ++ [(room, [⟨hostTok a.1, a⟩])], some (.roomCreated (hostTok a.1)))
    | some _ => (reg, some .roomAlreadyExists)
  else if opc = 2 then
    match findRoom reg room with
    | some ms =>
      (setRoom reg room (ms ++ [⟨guestTok a.1 ms.length, a⟩]),
        some (.joined (guestTok a.1 ms.length)))
    | none => (reg, some .roomNotFound)
  else (reg, none)

/-- `handle_tcp_connection(conn, addr)` on the received byte string `data`:
`data[0]` is the room-name length, `data[1]` the opcode, `data[2]` the
unused state byte, `data[3:3+size]` the room name (Python slices truncate
silently).  An empty receive, an `IndexError` on a frame shorter than
3 bytes, or a `UnicodeDecodeError` on the room name is swallowed by the
handler's `except`, leaving the registry unchanged with no reply. -/
def handle_tcp_connection (reg : Registry) (data : List Nat) (a : Addr) :
    Registry × Option Reply :=
  match data with
  | b0 :: opc :: _state :: rest =>
    let roomBytes := rest.take b0
    if validUtf8 roomBytes then applyAdmission reg opc roomBytes a
    else (reg, none)
  | _ => (reg, none)

/-- `b"Room not found"` sent on the datagram socket. -/
def notFoundMsg : List Nat :=
  [82, 111, 111, 109, 32, 110, 111, 116, 32, 102, 111, 117, 110, 100]

/-- `b"Unauthorized"` (the reply the spec describes; the source never
sends it on the datagram path). -/
def unauthorizedMsg : List Nat :=
  [85, 110, 97, 117, 116, 104, 111, 114, 105, 122, 101, 100]

/-- The chat-frame parse of the relay (`udp_chat_handler` lines 80-84):
`data[0]` = room-name length, `data[1]` = token length,
`data[2:2+R]` = room name, `data[2+R:2+R+T]` = token,
`data[2+R+T:]` = message; slices truncate silently.  `none` when the
frame is shorter than 2 bytes or room/message fail UTF-8 decoding
(the handler also decodes the token for logging, which the full handler
below accounts for; the codec itself keeps the token as raw bytes as the
tuple `(room_name_len, token_len, room_name, token, message)` does). -/
def chatDecode (data : List Nat) :
    Option (Nat × Nat × List Nat × List Nat × List Nat) :=
  match data with
  | b0 :: b1 :: rest =>
    let room := rest.take b0
    let tok := (rest.drop b0).take b1
    let msg := (rest.drop b0).drop b1
    if validUtf8 room && validUtf8 msg then some (b0, b1, room, tok, msg)
    else none
  | _ => none

/-- The outbound packet the relay builds (lines 96-102):
`bytes([len(room_name)]) + bytes([len(sender_token)]) +
room_name.encode() + sender_token + message.encode()`.
`len(room_name)` counts code points of the decoded string. -/
def chatEncode (room tok msg : List Nat) : List Nat :=
  charCount room :: tok.length :: (room ++ tok ++ msg)

/-- One iteration of `udp_chat_handler` on a received datagram
`(data, src)`: returns the registry (never mutated by this path) and the
ordered list of `(address, payload)` pairs passed to `sendto`.  A frame
shorter than 2 bytes raises `IndexError`, and an invalid room name, token
or message raises `UnicodeDecodeError` in the logging lines executed
before the room lookup; either way the `except` swallows it and nothing
is sent.  If the room exists the packet is rebuilt and sent to every
member's recorded address; otherwise `b"Room not found"` goes back to
the source. -/
def udp_chat_handler (reg : Registry) (data : List Nat) (src : Addr) :
    Registry × List (Addr × List Nat) :=
  match data with
  | b0 :: b1 :: rest =>
    let roomBytes := rest.take b0
    let tokBytes := (rest.drop b0).take b1
    let msgBytes := (rest.drop b0).drop b1
    if validUtf8 roomBytes && validUtf8 tokBytes && validUtf8 msgBytes then
      match findRoom reg roomBytes with
      | some ms =>
        (reg, ms.map (fun m => (m.addr, chatEncode roomBytes tokBytes msgBytes)))
      | none => (reg, [(src, notFoundMsg)])
    else (reg, [])
  | _ => (reg, [])

/-- A server event: one TCP admission connection (received bytes and peer
address) or one UDP datagram (payload and source address). -/
inductive Event where
  | tcp (data : List Nat) (a : Addr)
  | udp (data : List Nat) (src : Addr)

/-- The registry after processing one event (outputs discarded). -/
def stepRegistry (reg : Registry) (e : Event) : Registry :=
  match e with
  | .tcp data a => (handle_tcp_connection reg data a).1
  | .udp data src => (udp_chat_handler reg data src).1

/-- The registry reached from server start by a sequence of events. -/
def runEvents (es : List Event) : Registry :=
  es.foldl stepRegistry emptyRegistry

/-! ### Decimal representation lemmas -/

lemma digitChar_ne_underscore {k : Nat} (h : k < 10) : digitChar k ≠ '_' := by
  interval_cases k <;> decide

lemma digitChar_toNat {k : Nat} (h : k < 10) : (digitChar k).toNat = 48 + k := by
  interval_cases k <;> decide

lemma natReprAux_congr :
    ∀ (fuel1 fuel2 n : Nat), n < fuel1 → n < fuel2 →
      natReprAux fuel1 n = natReprAux fuel2 n := by
  intro fuel1
  induction fuel1 with
  | zero =>
    intro fuel2 n h1 _
    omega
  | succ f1 ih =>
    intro fuel2 n h1 h2
    cases fuel2 with
    | zero => omega
    | succ f2 =>
      rw [natReprAux, natReprAux]
      split
      · rfl
      · rename_i hge
        have hdiv : n / 10 < n := Nat.div_lt_self (by omega) (by omega)
        rw [ih f2 (n / 10) (by omega) (by omega)]

lemma natRepr_unfold (n : Nat) :
    natRepr n = if n < 10 then [digitChar n]
      else natRepr (n / 10) ++ [digitChar (n % 10)] := by
  unfold natRepr
  rw [natReprAux]
  split
  · rfl
  · rename_i hge
    have hdiv : n / 10 < n := Nat.div_lt_self (by omega) (by omega)
    rw [natReprAux_congr n (n / 10 + 1) (n / 10) (by omega) (by omega)]

lemma natRepr_no_underscore (n : Nat) : ∀ c ∈ natRepr n, c ≠ '_' := by
  induction n using Nat.strong_induction_on with
  | _ n ih =>
    rw [natRepr_unfold]
    split
    · intro c hc
      rw [List.mem_singleton] at hc
      subst hc
      exact digitChar_ne_underscore (by omega)
    · intro c hc
      rw [List.mem_append] at hc
      cases hc with
      | inl h => exact ih (n / 10) (Nat.div_lt_self (by omega) (by omega)) c h
      | inr h =>
        rw [List.mem_singleton] at h
        subst h
        exact digitChar_ne_underscore (Nat.mod_lt _ (by omega))

lemma natRepr_foldl (n : Nat) : ∀ a : Nat,
    (natRepr n).foldl (fun x c => 10 * x + (c.toNat - 48)) a
      = a * 10 ^ (natRepr n).length + n := by
  induction n using Nat.strong_induction_on with
  | _ n ih =>
    intro a
    rw [natRepr_unfold]
    split
    · rename_i hlt
      simp [List.foldl, digitChar_toNat hlt]
      omega
    · rename_i hge
      rw [List.foldl_append, List.length_append,
        ih (n / 10) (Nat.div_lt_self (by omega) (by omega)) a]
      have hmod : (digitChar (n % 10)).toNat = 48 + n % 10 :=
        digitChar_toNat (Nat.mod_lt _ (by omega))
      have hdm : 10 * (n / 10) + n % 10 = n := Nat.div_add_mod n 10
      simp only [List.foldl_cons, List.foldl_nil, List.length_singleton, hmod]
      calc 10 * (a * 10 ^ (natRepr (n / 10)).length + n / 10) + (48 + n % 10 - 48)
      _ = a * (10 ^ (natRepr (n / 10)).length * 10) + (10 * (n / 10) + n % 10) := by ring_nf; omega
      _ = a * 10 ^ ((natRepr (n / 10)).length + 1) + n := by rw [hdm, pow_succ]

lemma natRepr_inj {m n : Nat} (h : natRepr m = natRepr n) : m = n := by
  have hm := natRepr_foldl m 0
  have hn := natRepr_foldl n 0
  rw [h] at hm
  simp only [Nat.zero_mul, Nat.zero_add] at hm hn
  omega

/-! ### Token shape lemmas -/

lemma append_underscore_inj :
    ∀ (a b c d : List Char), (∀ x ∈ c, x ≠ '_') → (∀ x ∈ d, x ≠ '_') →
      a ++ '_' :: c = b ++ '_' :: d → c = d := by
  intro a
  induction a with
  | nil =>
    intro b c d hc hd h
    cases b with
    | nil => simpa using h
    | cons y b' =>
      rw [List.nil_append, List.cons_append, List.cons.injEq] at h
      exact absurd rfl
        (hc '_' (by rw [h.2]; exact List.mem_append_right _ (List.mem_cons_self _ _)))
  | cons x a' ih =>
    intro b c d hc hd h
    cases b with
    | nil =>
      rw [List.nil_append, List.cons_append, List.cons.injEq] at h
      exact absurd rfl
        (hd '_' (by rw [← h.2]; exact List.mem_append_right _ (List.mem_cons_self _ _)))
    | cons y b' =>
      rw [List.cons_append, List.cons_append, List.cons.injEq] at h
      exact ih b' c d hc hd h.2

lemma guestTok_inj_idx {ip1 ip2 : List Char} {i j : Nat}
    (h : guestTok ip1 i = guestTok ip2 j) : i = j := by
  unfold guestTok at h
  simp only [List.cons.injEq, true_and] at h
  exact natRepr_inj
    (append_underscore_inj ip1 ip2 _ _ (natRepr_no_underscore i) (natRepr_no_underscore j) h)

lemma hostTok_ne_guestTok (ip1 ip2 : List Char) (n : Nat) :
    hostTok ip1 ≠ guestTok ip2 n := by
  intro h
  unfold hostTok guestTok at h
  rw [List.cons.injEq] at h
  exact absurd h.1 (by decide)

/-! ### Room shape invariant -/

/-- Every member of `l`, read left to right starting at position index `i`
of its room, carries a guest token recording its own index. -/
def GuestsFrom : Nat → List Member → Prop
  | _, [] => True
  | i, m :: rest => (∃ ip, m.token = guestTok ip i) ∧ GuestsFrom (i + 1) rest

/-- Shape of every reachable room: nonempty, the first member carries a
host token, the member at index `k ≥ 1` carries a guest token whose
numeric suffix is `k`. -/
def RoomOk : List Member → Prop
  | [] => False
  | m :: rest => (∃ ip, m.token = hostTok ip) ∧ GuestsFrom 1 rest

lemma guestsFrom_append {l : List Member} {m : Member} :
    ∀ i, GuestsFrom i l → (∃ ip, m.token = guestTok ip (i + l.length)) →
      GuestsFrom i (l ++ [m]) := by
  induction l with
  | nil =>
    intro i _ hm
    rw [List.nil_append]
    exact ⟨by simpa using hm, trivial⟩
  | cons x rest ih =>
    intro i hx hm
    obtain ⟨h1, h2⟩ := hx
    refine ⟨h1, ih (i + 1) h2 ?_⟩
    have he : i + (x :: rest).length = i + 1 + rest.length := by
      rw [List.length_cons]
      omega
    rw [he] at hm
    exact hm

lemma roomOk_ne_nil {ms : List Member} (h : RoomOk ms) : ms ≠ [] := by
  cases ms with
  | nil => exact absurd h (by simp [RoomOk])
  | cons m rest => exact List.cons_ne_nil m rest

lemma roomOk_append_guest {ms : List Member} (h : RoomOk ms) (ip : List Char) (a : Addr) :
    RoomOk (ms ++ [⟨guestTok ip ms.length, a⟩]) := by
  cases ms with
  | nil => exact absurd h (by simp [RoomOk])
  | cons m rest =>
    obtain ⟨h1, h2⟩ := h
    rw [List.cons_append]
    refine ⟨h1, guestsFrom_append 1 h2 ⟨ip, ?_⟩⟩
    have he : (m :: rest).length = 1 + rest.length := by
      rw [List.length_cons]
      omega
    rw [he]

lemma guestsFrom_get {l : List Member} :
    ∀ i, GuestsFrom i l → ∀ k, ∀ h : k < l.length,
      ∃ ip, (l[k]).token = guestTok ip (i + k) := by
  induction l with
  | nil =>
    intro i _ k h
    exact absurd h (by simp)
  | cons m rest ih =>
    intro i hg k h
    obtain ⟨h1, h2⟩ := hg
    cases k with
    | zero => simpa using h1
    | succ k' =>
      have hk' : k' < rest.length := by
        rw [List.length_cons] at h
        omega
      obtain ⟨ip, hip⟩ := ih (i + 1) h2 k' hk'
      refine ⟨ip, ?_⟩
      rw [List.getElem_cons_succ, hip]
      have : i + 1 + k' = i + (k' + 1) := by omega
      rw [this]

lemma roomOk_get_zero {ms : List Member} (h : RoomOk ms) (h0 : 0 < ms.length) :
    ∃ ip, (ms[0]).token = hostTok ip := by
  cases ms with
  | nil => exact absurd h (by simp [RoomOk])
  | cons m rest => simpa using h.1

lemma roomOk_get_pos {ms : List Member} (h : RoomOk ms) {k : Nat}
    (hk : k < ms.length) (h1 : 1 ≤ k) :
    ∃ ip, (ms[k]).token = guestTok ip k := by
  cases ms with
  | nil => exact absurd h (by simp [RoomOk])
  | cons m rest =>
    cases k with
    | zero => omega
    | succ k' =>
      have hk' : k' < rest.length := by
        rw [List.length_cons] at hk
        omega
      obtain ⟨ip, hip⟩ := guestsFrom_get 1 h.2 k' hk'
      refine ⟨ip, ?_⟩
      rw [List.getElem_cons_succ, hip]
      have : 1 + k' = k' + 1 := by omega
      rw [this]

lemma roomOk_tokens_distinct {ms : List Member} (h : RoomOk ms) :
    ∀ i j, ∀ hi : i < ms.length, ∀ hj : j < ms.length, i ≠ j →
      (ms[i]).token ≠ (ms[j]).token := by
  intro i j hi hj hne
  cases Nat.eq_zero_or_pos i with
  | inl hi0 =>
    subst hi0
    obtain ⟨ip1, hip1⟩ := roomOk_get_zero h (by omega)
    obtain ⟨ip2, hip2⟩ := roomOk_get_pos h hj (by omega)
    rw [hip1, hip2]
    exact hostTok_ne_guestTok ip1 ip2 j
  | inr hipos =>
    cases Nat.eq_zero_or_pos j with
    | inl hj0 =>
      subst hj0
      obtain ⟨ip1, hip1⟩ := roomOk_get_pos h hi (by omega)
      obtain ⟨ip2, hip2⟩ := roomOk_get_zero h (by omega)
      rw [hip1, hip2]
      exact (hostTok_ne_guestTok ip2 ip1 i).symm
    | inr hjpos =>
      obtain ⟨ip1, hip1⟩ := roomOk_get_pos h hi (by omega)
      obtain ⟨ip2, hip2⟩ := roomOk_get_pos h hj (by omega)
      rw [hip1, hip2]
      intro hcontra
      exact hne (guestTok_inj_idx hcontra)

/-! ### Registry invariant and its preservation -/

/-- Every room stored in the registry satisfies the room shape invariant. -/
def RegInv (reg : Registry) : Prop := ∀ e ∈ reg, RoomOk e.2

lemma findRoom_mem {reg : Registry} {name : List Nat} {ms : List Member}
    (h : findRoom reg name = some ms) : (name, ms) ∈ reg := by
  induction reg with
  | nil => exact absurd h (by simp [findRoom])
  | cons e rest ih =>
    obtain ⟨n, l⟩ := e
    rw [findRoom] at h
    split at h
    · rename_i heq
      rw [Option.some.injEq] at h
      subst heq
      subst h
      exact List.mem_cons_self _ _
    · exact List.mem_cons_of_mem _ (ih h)

lemma findRoom_append_of_some {reg : Registry} {name : List Nat} {ms : List Member}
    (h : findRoom reg name = some ms) (l2 : Registry) :
    findRoom (reg ++ l2) name = some ms := by
  induction reg with
  | nil => exact absurd h (by simp [findRoom])
  | cons e rest ih =>
    obtain ⟨n, l⟩ := e
    rw [findRoom] at h
    rw [List.cons_append, findRoom]
    split at h
    · rename_i heq
      rw [if_pos heq]
      exact h
    · rename_i heq
      rw [if_neg heq]
      exact ih h

lemma findRoom_append_nil {reg : Registry} {name room : List Nat}
    (h : findRoom reg name = none) (hne : room ≠ name) (ms : List Member) :
    findRoom (reg ++ [(room, ms)]) name = none := by
  induction reg with
  | nil =>
    rw [List.nil_append, findRoom, if_neg hne]
    rfl
  | cons e rest ih =>
    obtain ⟨n, l⟩ := e
    rw [findRoom] at h
    rw [List.cons_append, findRoom]
    split at h
    · exact absurd h (by simp)
    · rename_i heq
      rw [if_neg heq]
      exact ih h

lemma findRoom_append_self {reg : Registry} {room : List Nat}
    (h : findRoom reg room = none) (ms : List Member) :
    findRoom (reg ++ [(room, ms)]) room = some ms := by
  induction reg with
  | nil =>
    rw [List.nil_append, findRoom, if_pos rfl]
  | cons e rest ih =>
    obtain ⟨n, l⟩ := e
    rw [findRoom] at h
    rw [List.cons_append, findRoom]
    split at h
    · exact absurd h (by simp)
    · rename_i heq
      rw [if_neg heq]
      exact ih h

lemma mem_setRoom {reg : Registry} {room : List Nat} {ms : List Member} {e} :
    e ∈ setRoom reg room ms → e = (room, ms) ∨ e ∈ reg := by
  induction reg with
  | nil =>
    intro h
    exact absurd h (by simp [setRoom])
  | cons hd rest ih =>
    obtain ⟨n, l⟩ := hd
    rw [setRoom]
    split
    · intro h
      rcases List.mem_cons.mp h with h' | h'
      · exact Or.inl h'
      · rcases ih h' with h'' | h''
        · exact Or.inl h''
        · exact Or.inr (List.mem_cons_of_mem _ h'')
    · intro h
      rcases List.mem_cons.mp h with h' | h'
      · exact Or.inr (h' ▸ List.mem_cons_self _ _)
      · rcases ih h' with h'' | h''
        · exact Or.inl h''
        · exact Or.inr (List.mem_cons_of_mem _ h'')

lemma findRoom_setRoom_self {reg : Registry} {room : List Nat} {ms0 : List Member}
    (h : findRoom reg room = some ms0) (ms : List Member) :
    findRoom (setRoom reg room ms) room = some ms := by
  induction reg with
  | nil => exact absurd h (by simp [findRoom])
  | cons e rest ih =>
    obtain ⟨n, l⟩ := e
    rw [findRoom] at h
    rw [setRoom]
    split at h
    · rename_i heq
      rw [if_pos heq, findRoom, if_pos rfl]
    · rename_i heq
      rw [if_neg heq, findRoom, if_neg heq]
      exact ih h

lemma findRoom_setRoom_other {reg : Registry} {room name : List Nat}
    (hne : room ≠ name) (ms : List Member) :
    findRoom (setRoom reg room ms) name = findRoom reg name := by
  induction reg with
  | nil => rfl
  | cons e rest ih =>
    obtain ⟨n, l⟩ := e
    rw [setRoom]
    by_cases heq : n = room
    · rw [if_pos heq, findRoom, findRoom, if_neg hne, heq, if_neg hne]
      exact ih
    · rw [if_neg heq, findRoom, findRoom]
      split
      · rfl
      · exact ih

lemma regInv_applyAdmission {reg : Registry} (h : RegInv reg)
    (opc : Nat) (room : List Nat) (a : Addr) :
    RegInv (applyAdmission reg opc room a).1 := by
  unfold applyAdmission
  split
  · split
    · rename_i hfind
      intro e he
      rw [List.mem_append] at he
      cases he with
      | inl h' => exact h e h'
      | inr h' =>
        rw [List.mem_singleton] at h'
        subst h'
        exact ⟨⟨a.1, rfl⟩, trivial⟩
    · exact h
  · split
    · split
      · rename_i ms hfind
        intro e he
        rcases mem_setRoom he with heq | hold
        · subst heq
          exact roomOk_append_guest (h _ (findRoom_mem hfind)) a.1 a
        · exact h e hold
      · exact h
    · exact h

lemma udp_registry_eq (reg : Registry) (data : List Nat) (src : Addr) :
    (udp_chat_handler reg data src).1 = reg := by
  unfold udp_chat_handler
  match data with
  | [] => rfl
  | [b0] => rfl
  | b0 :: b1 :: rest =>
    dsimp only
    split
    · split <;> rfl
    · rfl

lemma tcp_registry_cases (reg : Registry) (data : List Nat) (a : Addr) :
    (handle_tcp_connection reg data a).1 = reg ∨
      ∃ opc room, validUtf8 room = true ∧
        (handle_tcp_connection reg data a).1 = (applyAdmission reg opc room a).1 := by
  unfold handle_tcp_connection
  match data with
  | [] => exact Or.inl rfl
  | [b0] => exact Or.inl rfl
  | [b0, b1] => exact Or.inl rfl
  | b0 :: opc :: st :: rest =>
    dsimp only
    split
    · rename_i hv
      exact Or.inr ⟨opc, rest.take b0, hv, rfl⟩
    · exact Or.inl rfl

lemma regInv_step {reg : Registry} (h : RegInv reg) (e : Event) :
    RegInv (stepRegistry reg e) := by
  cases e with
  | tcp data a =>
    simp only [stepRegistry]
    rcases tcp_registry_cases reg data a with heq | ⟨opc, room, _, heq⟩
    · rw [heq]
      exact h
    · rw [heq]
      exact regInv_applyAdmission h opc room a
  | udp data src =>
    simp only [stepRegistry]
    rw [udp_registry_eq]
    exact h

lemma regInv_foldl {reg : Registry} (h : RegInv reg) (es : List Event) :
    RegInv (es.foldl stepRegistry reg) := by
  induction es generalizing reg with
  | nil => exact h
  | cons e rest ih => exact ih (regInv_step h e)

lemma regInv_runEvents (es : List Event) : RegInv (runEvents es) := by
  unfold runEvents
  exact regInv_foldl (by intro e he; exact absurd he (by simp [emptyRegistry])) es

/-! ### UDP handler characterization -/

lemma udp_sends_of_found {reg : Registry} {b0 b1 : Nat} {rest : List Nat}
    {src : Addr} {ms : List Member}
    (hr : validUtf8 (rest.take b0) = true)
    (ht : validUtf8 ((rest.drop b0).take b1) = true)
    (hm : validUtf8 ((rest.drop b0).drop b1) = true)
    (hf : findRoom reg (rest.take b0) = some ms) :
    (udp_chat_handler reg (b0 :: b1 :: rest) src).2
      = ms.map (fun m =>
          (m.addr,
            chatEncode (rest.take b0) ((rest.drop b0).take b1) ((rest.drop b0).drop b1))) := by
  unfold udp_chat_handler
  simp only [hr, ht, hm, hf, Bool.and_self, if_true]

lemma udp_sends_of_not_found {reg : Registry} {b0 b1 : Nat} {rest : List Nat}
    {src : Addr}
    (hr : validUtf8 (rest.take b0) = true)
    (ht : validUtf8 ((rest.drop b0).take b1) = true)
    (hm : validUtf8 ((rest.drop b0).drop b1) = true)
    (hf : findRoom reg (rest.take b0) = none) :
    (udp_chat_handler reg (b0 :: b1 :: rest) src).2 = [(src, notFoundMsg)] := by
  unfold udp_chat_handler
  simp only [hr, ht, hm, hf, Bool.and_self, if_true]

lemma charCount_of_ascii {bs : List Nat} (h : ∀ b ∈ bs, b < 128) :
    charCount bs = bs.length := by
  unfold charCount
  rw [List.countP_eq_length]
  intro b hb
  have hlt := h b hb
  simp only [isCont, Bool.not_and, Bool.or_eq_true, Bool.not_eq_true']
  left
  simp only [decide_eq_false_iff_not]
  omega

lemma tcp_members_extend {reg : Registry} (data : List Nat) (a : Addr)
    {name : List Nat} {ms : List Member}
    (h : findRoom reg name = some ms) :
    ∃ tail, findRoom ((handle_tcp_connection reg data a).1) name = some (ms ++ tail) := by
  rcases tcp_registry_cases reg data a with heq | ⟨opc, room, _, heq⟩
  · exact ⟨[], by rw [heq, List.append_nil]; exact h⟩
  · rw [heq]
    unfold applyAdmission
    split
    · split
      · refine ⟨[], ?_⟩
        rw [List.append_nil]
        dsimp only
        exact findRoom_append_of_some h _
      · exact ⟨[], by rw [List.append_nil]; exact h⟩
    · split
      · split
        · rename_i ms' hfind
          by_cases hrn : room = name
          · subst hrn
            rw [h] at hfind
            rw [Option.some.injEq] at hfind
            subst hfind
            refine ⟨[⟨guestTok a.1 ms.length, a⟩], ?_⟩
            dsimp only
            exact findRoom_setRoom_self h _
          · refine ⟨[], ?_⟩
            rw [List.append_nil]
            dsimp only
            rw [findRoom_setRoom_other hrn]
            exact h
        · exact ⟨[], by rw [List.append_nil]; exact h⟩
      · exact ⟨[], by rw [List.append_nil]; exact h⟩

/-! ### Claim theorems -/

/-- C4 counterexample: the chat frame `[2, 1, 0xC3, 0xA9, 0x74, 0x68, 0x69]`
(room name `"é"` — two UTF-8 bytes, one code point — token `"t"`, message
`"hi"`) is a valid chat frame with well-formed length prefixes, yet
re-encoding the decoded fields writes `len(room_name) = 1` (code points)
where the original frame carried `room_name_len = 2` (bytes), so
`encode(decode(frame)) ≠ frame`. -/
theorem C4_roundtrip_counterexample :
    chatDecode [2, 1, 195, 169, 116, 104, 105]
        = some (2, 1, [195, 169], [116], [104, 105]) ∧
    2 + 2 + 1 ≤ ([2, 1, 195, 169, 116, 104, 105] : List Nat).length ∧
    chatEncode [195, 169] [116] [104, 105] ≠ [2, 1, 195, 169, 116, 104, 105] := by
  decide

/-- C4 amended: for every valid chat frame (well-formed length prefixes,
UTF-8 room name and message) whose room name consists of single-byte
(ASCII) characters, re-encoding the decoded fields reproduces the frame
byte for byte. -/
theorem C4_roundtrip_ascii_room (data : List Nat) (b0 b1 : Nat)
    (room tok msg : List Nat)
    (hdec : chatDecode data = some (b0, b1, room, tok, msg))
    (hlen : 2 + b0 + b1 ≤ data.length)
    (hascii : ∀ b ∈ room, b < 128) :
    chatEncode room tok msg = data := by
  match data with
  | [] => exact absurd hdec (by simp [chatDecode])
  | [x] => exact absurd hdec (by simp [chatDecode])
  | x :: y :: rest =>
    unfold chatDecode at hdec
    dsimp only at hdec
    split at hdec
    · simp only [Option.some.injEq, Prod.mk.injEq] at hdec
      obtain ⟨rfl, rfl, rfl, rfl, rfl⟩ := hdec
      rw [List.length_cons, List.length_cons] at hlen
      unfold chatEncode
      rw [charCount_of_ascii hascii]
      rw [List.length_take, List.length_take, List.length_drop]
      rw [Nat.min_eq_left (by omega), Nat.min_eq_left (by omega)]
      rw [List.append_assoc, List.take_append_drop, List.take_append_drop]
    · exact absurd hdec (by simp)

/-- C4 witness: the amended round trip at the concrete valid ASCII frame
`[1, 1, 114, 116]` (room `"r"`, token `"t"`, empty message). -/
theorem C4_roundtrip_ascii_room_witness :
    chatDecode [1, 1, 114, 116] = some (1, 1, [114], [116], []) ∧
    2 + 1 + 1 ≤ ([1, 1, 114, 116] : List Nat).length ∧
    (∀ b ∈ ([114] : List Nat), b < 128) ∧
    chatEncode [114] [116] [] = [1, 1, 114, 116] :=
  ⟨by decide, by decide, by decide,
    C4_roundtrip_ascii_room [1, 1, 114, 116] 1 1 [114] [116] []
      (by decide) (by decide) (by decide)⟩

/-- C5: a CREATE naming an existing room replies "Room already exists"
and a JOIN naming an absent room replies "Room not found"; both leave the
registry completely unchanged, and after two CREATEs of the same name the
room holds exactly the member admitted by the first CREATE. -/
theorem C5_admission_failure_no_mutation (reg : Registry) (room : List Nat)
    (a : Addr) :
    ((findRoom reg room).isSome →
      applyAdmission reg 1 room a = (reg, some .roomAlreadyExists)) ∧
    (findRoom reg room = none →
      applyAdmission reg 2 room a = (reg, some .roomNotFound)) ∧
    (∀ a1 a2 : Addr, findRoom reg room = none →
      (applyAdmission (applyAdmission reg 1 room a1).1 1 room a2).1
          = (applyAdmission reg 1 room a1).1 ∧
      (applyAdmission (applyAdmission reg 1 room a1).1 1 room a2).2
          = some .roomAlreadyExists ∧
      findRoom (applyAdmission (applyAdmission reg 1 room a1).1 1 room a2).1 room
          = some [⟨hostTok a1.1, a1⟩]) := by
  have hcreate_conflict : ∀ (reg' : Registry) (a' : Addr) (ms : List Member),
      findRoom reg' room = some ms →
      applyAdmission reg' 1 room a' = (reg', some .roomAlreadyExists) := by
    intro reg' a' ms hf
    unfold applyAdmission
    rw [if_pos rfl, hf]
  refine ⟨?_, ?_, ?_⟩
  · intro h
    cases hf : findRoom reg room with
    | none => rw [hf] at h; exact absurd h (by simp)
    | some ms => exact hcreate_conflict reg a ms hf
  · intro h
    unfold applyAdmission
    rw [if_neg (by omega), if_pos rfl, h]
  · intro a1 a2 h
    have hfirst : (applyAdmission reg 1 room a1).1
        = reg ++ [(room, [⟨hostTok a1.1, a1⟩])] := by
      unfold applyAdmission
      rw [if_pos rfl, h]
    have hfind : findRoom (applyAdmission reg 1 room a1).1 room
        = some [⟨hostTok a1.1, a1⟩] := by
      rw [hfirst]
      exact findRoom_append_self h _
    rw [hcreate_conflict _ a2 _ hfind]
    exact ⟨rfl, rfl, hfind⟩

/-- C5 witness: the failure replies at concrete inputs: CREATE of `"r"`
when `"r"` exists, JOIN of `"s"` when absent, and the double CREATE. -/
theorem C5_admission_failure_no_mutation_witness :
    (applyAdmission [([114], [⟨hostTok ['1'], (['1'], 5)⟩])] 1 [114] (['2'], 6)
        = ([([114], [⟨hostTok ['1'], (['1'], 5)⟩])], some .roomAlreadyExists)) ∧
    (applyAdmission [([114], [⟨hostTok ['1'], (['1'], 5)⟩])] 2 [115] (['2'], 6)
        = ([([114], [⟨hostTok ['1'], (['1'], 5)⟩])], some .roomNotFound)) ∧
    findRoom (applyAdmission (applyAdmission emptyRegistry 1 [114] (['1'], 5)).1
        1 [114] (['3'], 7)).1 [114] = some [⟨hostTok ['1'], (['1'], 5)⟩] :=
  ⟨(C5_admission_failure_no_mutation _ [114] (['2'], 6)).1 (by decide),
    (C5_admission_failure_no_mutation _ [115] (['2'], 6)).2.1 (by decide),
    ((C5_admission_failure_no_mutation emptyRegistry [114] (['9'], 9)).2.2
      (['1'], 5) (['3'], 7) (by decide)).2.2⟩

/-- C9 counterexample: the admission frame `[0, 1, 0]` has
`room_name_len == 0`, yet the server does not reject it: it creates a
room whose name is the empty string and mutates the registry. -/
theorem C9_empty_name_counterexample :
    handle_tcp_connection emptyRegistry [0, 1, 0] (['1'], 5)
        = ([([], [⟨hostTok ['1'], (['1'], 5)⟩])],
            some (.roomCreated (hostTok ['1']))) ∧
    (handle_tcp_connection emptyRegistry [0, 1, 0] (['1'], 5)).1 ≠ emptyRegistry := by
  decide

/-- C9 amended: an admission frame with `room_name_len == 0` is not
rejected; it is processed like any other frame, and a CREATE with an
empty room name admits a room keyed by the empty string. -/
theorem C9_empty_name_admitted (reg : Registry) (opc : Nat) (a : Addr)
    (h : findRoom reg [] = none) :
    handle_tcp_connection reg [0, opc, 0] a = applyAdmission reg opc [] a ∧
    (opc = 1 → handle_tcp_connection reg [0, opc, 0] a
        = (reg ++ [([], [⟨hostTok a.1, a⟩])], some (.roomCreated (hostTok a.1)))) := by
  have hparse : handle_tcp_connection reg [0, opc, 0] a = applyAdmission reg opc [] a := by
    unfold handle_tcp_connection
    rfl
  refine ⟨hparse, ?_⟩
  intro hopc
  subst hopc
  rw [hparse]
  unfold applyAdmission
  rw [if_pos rfl, h]

/-- C9 witness: the amended behavior at the empty registry. -/
theorem C9_empty_name_admitted_witness :
    findRoom emptyRegistry [] = none ∧
    handle_tcp_connection emptyRegistry [0, 1, 0] (['1'], 5)
        = (emptyRegistry ++ [([], [⟨hostTok ['1'], (['1'], 5)⟩])],
            some (.roomCreated (hostTok ['1']))) :=
  ⟨by decide, (C9_empty_name_admitted emptyRegistry 1 (['1'], 5) (by decide)).2 rfl⟩

/-- C10: processing any UDP datagram leaves the registry unchanged; every
datagram the relay emits is either the `"Room not found"` reply to the
source or a fanout copy addressed to the recorded address of a member of
the named room; and a TCP admission can only append members to an
existing room, never alter them — so the address used for fanout to a
member is always the `(ip, port)` of that member's TCP admission
connection, recorded at admission time and never modified. -/
theorem C10_registry_and_addresses_stable :
    (∀ (reg : Registry) (data : List Nat) (src : Addr),
      (udp_chat_handler reg data src).1 = reg) ∧
    (∀ (reg : Registry) (data : List Nat) (src : Addr)
        (p : Addr × List Nat), p ∈ (udp_chat_handler reg data src).2 →
      p = (src, notFoundMsg) ∨
        ∃ room ms m, findRoom reg room = some ms ∧ m ∈ ms ∧ p.1 = m.addr) ∧
    (∀ (reg : Registry) (data : List Nat) (a : Addr) (name : List Nat)
        (ms : List Member), findRoom reg name = some ms →
      ∃ tail, findRoom ((handle_tcp_connection reg data a).1) name
          = some (ms ++ tail)) := by
  refine ⟨udp_registry_eq, ?_, ?_⟩
  · intro reg data src p hp
    match data with
    | [] => exact absurd hp (by simp [udp_chat_handler])
    | [b0] => exact absurd hp (by simp [udp_chat_handler])
    | b0 :: b1 :: rest =>
      unfold udp_chat_handler at hp
      dsimp only at hp
      split at hp
      · cases hf : findRoom reg (rest.take b0) with
        | some ms =>
          simp only [hf] at hp
          rw [List.mem_map] at hp
          obtain ⟨m, hm, rfl⟩ := hp
          exact Or.inr ⟨rest.take b0, ms, m, hf, hm, rfl⟩
        | none =>
          simp only [hf] at hp
          rw [List.mem_singleton] at hp
          exact Or.inl hp
      · exact absurd hp (by simp)
  · intro reg data a name ms h
    exact tcp_members_extend data a h

/-- C10 witness: the three components at a one-room registry, a valid
datagram targeting it, and a JOIN admission. -/
theorem C10_registry_and_addresses_stable_witness :
    ((udp_chat_handler [([114], [⟨hostTok ['1'], (['1'], 5)⟩])]
        [1, 6, 114, 104, 111, 115, 116, 95, 49, 104, 105] (['9'], 7)).1
      = [([114], [⟨hostTok ['1'], (['1'], 5)⟩])]) ∧
    (((['1'], 5), [1, 6, 114, 104, 111, 115, 116, 95, 49, 104, 105])
        = (((['9'], 7) : Addr), notFoundMsg) ∨
      ∃ room ms m, findRoom [([114], [⟨hostTok ['1'], (['1'], 5)⟩])] room = some ms ∧
        m ∈ ms ∧
        ((((['1'], 5) : Addr), [1, 6, 114, 104, 111, 115, 116, 95, 49, 104, 105]) :
          Addr × List Nat).1 = m.addr) ∧
    (∃ tail, findRoom ((handle_tcp_connection [([114], [⟨hostTok ['1'], (['1'], 5)⟩])]
        [1, 2, 0, 114] (['2'], 6)).1) [114]
      = some ([⟨hostTok ['1'], (['1'], 5)⟩] ++ tail)) :=
  ⟨C10_registry_and_addresses_stable.1 _ _ _,
    C10_registry_and_addresses_stable.2.1 [([114], [⟨hostTok ['1'], (['1'], 5)⟩])]
      [1, 6, 114, 104, 111, 115, 116, 95, 49, 104, 105] (['9'], 7)
      (((['1'], 5), [1, 6, 114, 104, 111, 115, 116, 95, 49, 104, 105]))
      (by decide),
    C10_registry_and_addresses_stable.2.2 [([114], [⟨hostTok ['1'], (['1'], 5)⟩])]
      [1, 2, 0, 114] (['2'], 6) [114] [⟨hostTok ['1'], (['1'], 5)⟩] (by decide)⟩

/-- C6: a successful CREATE mints exactly `"host_<peer_ip>"` and a
successful JOIN mints exactly `"guest_<peer_ip>_<n>"` with `n` the
member count at join time; the minted token depends only on the
stream-side peer IP, not the port; and after any sequence of server
events the member tokens within each room are pairwise distinct. -/
theorem C6_token_scheme_and_uniqueness :
    (∀ (reg : Registry) (room : List Nat) (ip : List Char) (port1 port2 : Nat),
      findRoom reg room = none →
      (applyAdmission reg 1 room (ip, port1)).2
          = some (.roomCreated (hostTok ip)) ∧
      (applyAdmission reg 1 room (ip, port1)).2
          = (applyAdmission reg 1 room (ip, port2)).2) ∧
    (∀ (reg : Registry) (room : List Nat) (ip : List Char) (port1 port2 : Nat)
        (ms : List Member), findRoom reg room = some ms →
      (applyAdmission reg 2 room (ip, port1)).2
          = some (.joined (guestTok ip ms.length)) ∧
      (applyAdmission reg 2 room (ip, port1)).2
          = (applyAdmission reg 2 room (ip, port2)).2) ∧
    (∀ (es : List Event) (name : List Nat) (ms : List Member),
      findRoom (runEvents es) name = some ms →
      ∀ i j, ∀ hi : i < ms.length, ∀ hj : j < ms.length, i ≠ j →
        (ms[i]).token ≠ (ms[j]).token) := by
  refine ⟨?_, ?_, ?_⟩
  · intro reg room ip port1 port2 h
    have h1 : ∀ port : Nat, (applyAdmission reg 1 room (ip, port)).2
        = some (.roomCreated (hostTok ip)) := by
      intro port
      unfold applyAdmission
      rw [if_pos rfl, h]
    exact ⟨h1 port1, (h1 port1).trans (h1 port2).symm⟩
  · intro reg room ip port1 port2 ms h
    have h2 : ∀ port : Nat, (applyAdmission reg 2 room (ip, port)).2
        = some (.joined (guestTok ip ms.length)) := by
      intro port
      unfold applyAdmission
      rw [if_neg (by omega), if_pos rfl, h]
    exact ⟨h2 port1, (h2 port1).trans (h2 port2).symm⟩
  · intro es name ms h
    exact roomOk_tokens_distinct (regInv_runEvents es (name, ms) (findRoom_mem h))

/-- C6 witness: the token scheme and in-room uniqueness after a concrete
CREATE of `"r"` from `1.1.1.1:5` followed by a JOIN from `2.2.2.2:6`. -/
theorem C6_token_scheme_and_uniqueness_witness :
    ((applyAdmission emptyRegistry 1 [114] (['1'], 5)).2
        = some (.roomCreated (hostTok ['1']))) ∧
    (findRoom (runEvents [.tcp [1, 1, 0, 114] (['1'], 5), .tcp [1, 2, 0, 114] (['2'], 6)]) [114]
        = some [⟨hostTok ['1'], (['1'], 5)⟩, ⟨guestTok ['2'] 1, (['2'], 6)⟩]) ∧
    (([⟨hostTok ['1'], (['1'], 5)⟩, ⟨guestTok ['2'] 1, (['2'], 6)⟩] : List Member).get
        ⟨0, by decide⟩).token
      ≠ (([⟨hostTok ['1'], (['1'], 5)⟩, ⟨guestTok ['2'] 1, (['2'], 6)⟩] : List Member).get
        ⟨1, by decide⟩).token :=
  ⟨(C6_token_scheme_and_uniqueness.1 emptyRegistry [114] ['1'] 5 5 (by decide)).1,
    by decide,
    C6_token_scheme_and_uniqueness.2.2
      [.tcp [1, 1, 0, 114] (['1'], 5), .tcp [1, 2, 0, 114] (['2'], 6)] [114]
      [⟨hostTok ['1'], (['1'], 5)⟩, ⟨guestTok ['2'] 1, (['2'], 6)⟩]
      (by decide) 0 1 (by decide) (by decide) (by decide)⟩

/-- C7: after any sequence of server events, every room present in the
registry is nonempty, its member at index 0 carries a host token, and
every member at a positive index carries a guest token recording its own
index and is not a host — so the host is unique and sits at index 0. -/
theorem C7_exactly_one_host_at_index_zero (es : List Event) (name : List Nat)
    (ms : List Member) (h : findRoom (runEvents es) name = some ms) :
    0 < ms.length ∧
    (∀ h0 : 0 < ms.length, ∃ ip, (ms[0]).token = hostTok ip) ∧
    (∀ k, ∀ hk : k < ms.length, 1 ≤ k →
      (∃ ip, (ms[k]).token = guestTok ip k) ∧ ∀ ip, (ms[k]).token ≠ hostTok ip) := by
  have hok : RoomOk ms := regInv_runEvents es (name, ms) (findRoom_mem h)
  refine ⟨?_, fun h0 => roomOk_get_zero hok h0, ?_⟩
  · cases ms with
    | nil => exact absurd hok (by simp [RoomOk])
    | cons m rest => simp
  · intro k hk hk1
    obtain ⟨ip, hip⟩ := roomOk_get_pos hok hk hk1
    refine ⟨⟨ip, hip⟩, ?_⟩
    intro ip' hcontra
    rw [hip] at hcontra
    exact hostTok_ne_guestTok ip' ip k hcontra.symm

/-- C7 witness: the invariant at the registry reached by a concrete
CREATE followed by a JOIN. -/
theorem C7_exactly_one_host_at_index_zero_witness :
    findRoom (runEvents [.tcp [1, 1, 0, 114] (['1'], 5), .tcp [1, 2, 0, 114] (['2'], 6)]) [114]
        = some [⟨hostTok ['1'], (['1'], 5)⟩, ⟨guestTok ['2'] 1, (['2'], 6)⟩] ∧
    (0 < ([⟨hostTok ['1'], (['1'], 5)⟩, ⟨guestTok ['2'] 1, (['2'], 6)⟩] : List Member).length ∧
      (∀ h0 : 0 < ([⟨hostTok ['1'], (['1'], 5)⟩, ⟨guestTok ['2'] 1, (['2'], 6)⟩] : List Member).length,
        ∃ ip, (([⟨hostTok ['1'], (['1'], 5)⟩, ⟨guestTok ['2'] 1, (['2'], 6)⟩] : List Member)[0]).token = hostTok ip) ∧
      (∀ k, ∀ hk : k < ([⟨hostTok ['1'], (['1'], 5)⟩, ⟨guestTok ['2'] 1, (['2'], 6)⟩] : List Member).length, 1 ≤ k →
        (∃ ip, (([⟨hostTok ['1'], (['1'], 5)⟩, ⟨guestTok ['2'] 1, (['2'], 6)⟩] : List Member)[k]).token = guestTok ip k) ∧
          ∀ ip, (([⟨hostTok ['1'], (['1'], 5)⟩, ⟨guestTok ['2'] 1, (['2'], 6)⟩] : List Member)[k]).token ≠ hostTok ip)) :=
  ⟨by decide,
    C7_exactly_one_host_at_index_zero
      [.tcp [1, 1, 0, 114] (['1'], 5), .tcp [1, 2, 0, 114] (['2'], 6)] [114]
      [⟨hostTok ['1'], (['1'], 5)⟩, ⟨guestTok ['2'] 1, (['2'], 6)⟩] (by decide)⟩

/-- C8 counterexample: two CREATEs from the same peer IP `"1"` for the
distinct rooms `"r"` and `"s"` mint the identical token `host_1` for
both rooms, so that token is a member token of two distinct rooms of the
registry — not of exactly one. -/
theorem C8_token_in_two_rooms_counterexample :
    findRoom (runEvents [.tcp [1, 1, 0, 114] (['1'], 5), .tcp [1, 1, 0, 115] (['1'], 7)]) [114]
        = some [⟨hostTok ['1'], (['1'], 5)⟩] ∧
    findRoom (runEvents [.tcp [1, 1, 0, 114] (['1'], 5), .tcp [1, 1, 0, 115] (['1'], 7)]) [115]
        = some [⟨hostTok ['1'], (['1'], 7)⟩] ∧
    hostTok ['1'] ∈ List.map Member.token [⟨hostTok ['1'], (['1'], 5)⟩] ∧
    hostTok ['1'] ∈ List.map Member.token [⟨hostTok ['1'], (['1'], 7)⟩] ∧
    ([114] : List Nat) ≠ [115] := by
  decide

/-- C8 amended: after any sequence of server events, each admitted
member's token occurs exactly once in its own room's member list; the
same token may however occur in several distinct rooms (the host token
depends only on the creating peer's IP). -/
theorem C8_token_unique_within_own_room (es : List Event) (name : List Nat)
    (ms : List Member) (h : findRoom (runEvents es) name = some ms) :
    ∀ k, ∀ hk : k < ms.length,
      @List.count (List Char) instBEqOfDecidableEq ((ms[k]).token)
        (ms.map Member.token) = 1 := by
  have hok : RoomOk ms := regInv_runEvents es (name, ms) (findRoom_mem h)
  have hd := roomOk_tokens_distinct hok
  have hnd : (ms.map Member.token).Nodup := by
    apply List.pairwise_iff_getElem.mpr
    intro i j hi hj hij
    rw [List.length_map] at hi hj
    rw [List.getElem_map, List.getElem_map]
    exact hd i j hi hj (by omega)
  intro k hk
  exact List.count_eq_one_of_mem hnd
    (List.mem_map_of_mem Member.token (List.getElem_mem hk))

/-- C8 witness: in-room multiplicity one at the registry reached by a
CREATE followed by a JOIN. -/
theorem C8_token_unique_within_own_room_witness :
    findRoom (runEvents [.tcp [1, 1, 0, 114] (['1'], 5), .tcp [1, 2, 0, 114] (['2'], 6)]) [114]
        = some [⟨hostTok ['1'], (['1'], 5)⟩, ⟨guestTok ['2'] 1, (['2'], 6)⟩] ∧
    @List.count (List Char) instBEqOfDecidableEq
      ((([⟨hostTok ['1'], (['1'], 5)⟩, ⟨guestTok ['2'] 1, (['2'], 6)⟩] :
        List Member).get ⟨0, by decide⟩).token)
      (([⟨hostTok ['1'], (['1'], 5)⟩, ⟨guestTok ['2'] 1, (['2'], 6)⟩] :
        List Member).map Member.token) = 1 :=
  ⟨by decide,
    C8_token_unique_within_own_room
      [.tcp [1, 1, 0, 114] (['1'], 5), .tcp [1, 2, 0, 114] (['2'], 6)] [114]
      [⟨hostTok ['1'], (['1'], 5)⟩, ⟨guestTok ['2'] 1, (['2'], 6)⟩]
      (by decide) 0 (by decide)⟩

/-- C1 counterexample: room `"r"` has N = 2 members, both with recorded
addresses; the host sends a valid datagram carrying its own token from
its own recorded address `("1", 10)`, yet the relay emits 2 (= N, not
N−1) outbound datagrams, one of which is addressed to that very sender
address. -/
theorem C1_fanout_counterexample :
    ((udp_chat_handler
        [([114], [⟨hostTok ['1'], (['1'], 10)⟩, ⟨guestTok ['2'] 1, (['2'], 20)⟩])]
        [1, 6, 114, 104, 111, 115, 116, 95, 49, 104, 105] (['1'], 10)).2.length = 2) ∧
    ((((['1'], 10) : Addr), [1, 6, 114, 104, 111, 115, 116, 95, 49, 104, 105])
        ∈ (udp_chat_handler
            [([114], [⟨hostTok ['1'], (['1'], 10)⟩, ⟨guestTok ['2'] 1, (['2'], 20)⟩])]
            [1, 6, 114, 104, 111, 115, 116, 95, 49, 104, 105] (['1'], 10)).2) := by
  decide

/-- C1 amended: for every chat datagram that parses and names an existing
room with N members, the relay emits exactly N outbound datagrams — one
per member, addressed to the member's recorded admission address — with
no sender exclusion and no authentication: every member, the sender
included, receives a copy of the rebuilt frame. -/
theorem C1_fanout_covers_all_members (reg : Registry) (b0 b1 : Nat)
    (rest : List Nat) (src : Addr) (ms : List Member)
    (hr : validUtf8 (rest.take b0) = true)
    (ht : validUtf8 ((rest.drop b0).take b1) = true)
    (hm : validUtf8 ((rest.drop b0).drop b1) = true)
    (hf : findRoom reg (rest.take b0) = some ms) :
    (udp_chat_handler reg (b0 :: b1 :: rest) src).2.length = ms.length ∧
    ∀ m ∈ ms,
      (m.addr,
        chatEncode (rest.take b0) ((rest.drop b0).take b1) ((rest.drop b0).drop b1))
        ∈ (udp_chat_handler reg (b0 :: b1 :: rest) src).2 := by
  rw [udp_sends_of_found hr ht hm hf]
  constructor
  · exact List.length_map _ _
  · intro m hm'
    exact List.mem_map_of_mem _ hm'

/-- C1 witness: the amended fanout at a concrete two-member room. -/
theorem C1_fanout_covers_all_members_witness :
    (validUtf8 (([114, 104, 105] : List Nat).take 1) = true ∧
      validUtf8 ((([114, 104, 105] : List Nat).drop 1).take 0) = true ∧
      validUtf8 ((([114, 104, 105] : List Nat).drop 1).drop 0) = true ∧
      findRoom [([114], [⟨hostTok ['1'], (['1'], 10)⟩, ⟨guestTok ['2'] 1, (['2'], 20)⟩])]
        (([114, 104, 105] : List Nat).take 1)
        = some [⟨hostTok ['1'], (['1'], 10)⟩, ⟨guestTok ['2'] 1, (['2'], 20)⟩]) ∧
    ((udp_chat_handler
        [([114], [⟨hostTok ['1'], (['1'], 10)⟩, ⟨guestTok ['2'] 1, (['2'], 20)⟩])]
        [1, 0, 114, 104, 105] (['9'], 7)).2.length
      = ([⟨hostTok ['1'], (['1'], 10)⟩, ⟨guestTok ['2'] 1, (['2'], 20)⟩] :
          List Member).length ∧
      ∀ m ∈ ([⟨hostTok ['1'], (['1'], 10)⟩, ⟨guestTok ['2'] 1, (['2'], 20)⟩] :
          List Member),
        (m.addr,
          chatEncode (([114, 104, 105] : List Nat).take 1)
            ((([114, 104, 105] : List Nat).drop 1).take 0)
            ((([114, 104, 105] : List Nat).drop 1).drop 0))
          ∈ (udp_chat_handler
              [([114], [⟨hostTok ['1'], (['1'], 10)⟩, ⟨guestTok ['2'] 1, (['2'], 20)⟩])]
              [1, 0, 114, 104, 105] (['9'], 7)).2) :=
  ⟨⟨by decide, by decide, by decide, by decide⟩,
    C1_fanout_covers_all_members
      [([114], [⟨hostTok ['1'], (['1'], 10)⟩, ⟨guestTok ['2'] 1, (['2'], 20)⟩])]
      1 0 [114, 104, 105] (['9'], 7)
      [⟨hostTok ['1'], (['1'], 10)⟩, ⟨guestTok ['2'] 1, (['2'], 20)⟩]
      (by decide) (by decide) (by decide) (by decide)⟩

/-- C2 counterexample: the host of `"r"` was admitted over TCP from
`("1", 5)`, so its stored address is `("1", 5)`; it then sends a valid
chat datagram from the different source address `("1", 30)`, and the
relay does not update the stored address to the new source — no lazy
binding or rebinding happens, contradicting the claim. -/
theorem C2_no_lazy_binding_counterexample :
    findRoom (udp_chat_handler
        (handle_tcp_connection emptyRegistry [1, 1, 0, 114] (['1'], 5)).1
        [1, 6, 114, 104, 111, 115, 116, 95, 49, 104, 105] (['1'], 30)).1 [114]
      = some [⟨hostTok ['1'], (['1'], 5)⟩] ∧
    ((['1'], 5) : Addr) ≠ (['1'], 30) := by
  decide

/-- C2 amended: a member's stored address is the peer address of its TCP
admission connection, fixed at admission time: CREATE records the
creating connection's address, JOIN appends the joining connection's
address, and processing a UDP datagram never changes the registry, so
the stored address is never set or updated from a datagram's source. -/
theorem C2_address_fixed_at_admission :
    (∀ (reg : Registry) (room : List Nat) (a : Addr),
      findRoom reg room = none →
      findRoom (applyAdmission reg 1 room a).1 room = some [⟨hostTok a.1, a⟩]) ∧
    (∀ (reg : Registry) (room : List Nat) (a : Addr) (ms : List Member),
      findRoom reg room = some ms →
      findRoom (applyAdmission reg 2 room a).1 room
          = some (ms ++ [⟨guestTok a.1 ms.length, a⟩])) ∧
    (∀ (reg : Registry) (data : List Nat) (src : Addr),
      (udp_chat_handler reg data src).1 = reg) := by
  refine ⟨?_, ?_, udp_registry_eq⟩
  · intro reg room a h
    have heq : (applyAdmission reg 1 room a).1 = reg ++ [(room, [⟨hostTok a.1, a⟩])] := by
      unfold applyAdmission
      rw [if_pos rfl, h]
    rw [heq]
    exact findRoom_append_self h _
  · intro reg room a ms h
    have heq : (applyAdmission reg 2 room a).1
        = setRoom reg room (ms ++ [⟨guestTok a.1 ms.length, a⟩]) := by
      unfold applyAdmission
      rw [if_neg (by omega), if_pos rfl, h]
    rw [heq]
    exact findRoom_setRoom_self h _

/-- C2 witness: the recorded addresses at a concrete CREATE, JOIN, and a
datagram processed in between. -/
theorem C2_address_fixed_at_admission_witness :
    findRoom (applyAdmission emptyRegistry 1 [114] (['1'], 5)).1 [114]
        = some [⟨hostTok ['1'], (['1'], 5)⟩] ∧
    findRoom (applyAdmission [([114], [⟨hostTok ['1'], (['1'], 5)⟩])] 2 [114] (['2'], 6)).1 [114]
        = some ([⟨hostTok ['1'], (['1'], 5)⟩] ++ [⟨guestTok ['2'] 1, (['2'], 6)⟩]) ∧
    (udp_chat_handler [([114], [⟨hostTok ['1'], (['1'], 5)⟩])]
        [1, 6, 114, 104, 111, 115, 116, 95, 49, 104, 105] (['1'], 30)).1
      = [([114], [⟨hostTok ['1'], (['1'], 5)⟩])] :=
  ⟨C2_address_fixed_at_admission.1 emptyRegistry [114] (['1'], 5) (by decide),
    C2_address_fixed_at_admission.2.1 [([114], [⟨hostTok ['1'], (['1'], 5)⟩])]
      [114] (['2'], 6) [⟨hostTok ['1'], (['1'], 5)⟩] (by decide),
    C2_address_fixed_at_admission.2.2 [([114], [⟨hostTok ['1'], (['1'], 5)⟩])]
      [1, 6, 114, 104, 111, 115, 116, 95, 49, 104, 105] (['1'], 30)⟩

/-- C3 counterexample: room `"r"` exists with two members and the
datagram's token `"xxxxx"` is not a member token of the room, yet the
relay sends no `"Unauthorized"` (nor `"Room not found"`) reply to the
source `("4", 40)` and instead fans the message out to both members.
(The registry is indeed left unchanged — that part of the claim holds.) -/
theorem C3_no_unauthorized_reply_counterexample :
    (∀ m ∈ ([⟨hostTok ['1'], (['1'], 10)⟩, ⟨guestTok ['2'] 1, (['2'], 20)⟩] :
        List Member), ['x', 'x', 'x', 'x', 'x'] ≠ m.token) ∧
    (udp_chat_handler
        [([114], [⟨hostTok ['1'], (['1'], 10)⟩, ⟨guestTok ['2'] 1, (['2'], 20)⟩])]
        [1, 5, 114, 120, 120, 120, 120, 120, 98, 111, 111, 109] (['4'], 40)).2
      = [((['1'], 10), [1, 5, 114, 120, 120, 120, 120, 120, 98, 111, 111, 109]),
          ((['2'], 20), [1, 5, 114, 120, 120, 120, 120, 120, 98, 111, 111, 109])] ∧
    ((((['4'], 40) : Addr), unauthorizedMsg)
        ∉ (udp_chat_handler
            [([114], [⟨hostTok ['1'], (['1'], 10)⟩, ⟨guestTok ['2'] 1, (['2'], 20)⟩])]
            [1, 5, 114, 120, 120, 120, 120, 120, 98, 111, 111, 109] (['4'], 40)).2) ∧
    ((((['4'], 40) : Addr), notFoundMsg)
        ∉ (udp_chat_handler
            [([114], [⟨hostTok ['1'], (['1'], 10)⟩, ⟨guestTok ['2'] 1, (['2'], 20)⟩])]
            [1, 5, 114, 120, 120, 120, 120, 120, 98, 111, 111, 109] (['4'], 40)).2) := by
  decide

/-- C3 amended: for every chat datagram that parses and names an existing
room, the token is not consulted: even when it is not a member token of
the room (a hypothesis the proof never
needs — the code ignores the token entirely), the relay leaves the registry unchanged and
fans the rebuilt frame out to every member's recorded address; it never
replies `"Unauthorized"`.  Only a datagram naming a nonexistent room
draws a reply (`"Room not found"`). -/
theorem C3_bad_token_still_fanned_out (reg : Registry) (b0 b1 : Nat)
    (rest : List Nat) (src : Addr) (ms : List Member)
    (hr : validUtf8 (rest.take b0) = true)
    (ht : validUtf8 ((rest.drop b0).take b1) = true)
    (hm : validUtf8 ((rest.drop b0).drop b1) = true)
    (hf : findRoom reg (rest.take b0) = some ms)
    (_htok : ∀ m ∈ ms, (rest.drop b0).take b1 ≠ m.token.map Char.toNat) :
    (udp_chat_handler reg (b0 :: b1 :: rest) src).1 = reg ∧
    (udp_chat_handler reg (b0 :: b1 :: rest) src).2
      = ms.map (fun m =>
          (m.addr,
            chatEncode (rest.take b0) ((rest.drop b0).take b1)
              ((rest.drop b0).drop b1))) :=
  ⟨udp_registry_eq reg (b0 :: b1 :: rest) src, udp_sends_of_found hr ht hm hf⟩

/-- C3 witness: the amended behavior at the concrete unauthenticated
datagram of the counterexample scenario. -/
theorem C3_bad_token_still_fanned_out_witness :
    (validUtf8 (([114, 120, 121, 98] : List Nat).take 1) = true ∧
      validUtf8 ((([114, 120, 121, 98] : List Nat).drop 1).take 2) = true ∧
      validUtf8 ((([114, 120, 121, 98] : List Nat).drop 1).drop 2) = true ∧
      findRoom [([114], [⟨hostTok ['1'], (['1'], 10)⟩])]
        (([114, 120, 121, 98] : List Nat).take 1) = some [⟨hostTok ['1'], (['1'], 10)⟩] ∧
      ∀ m ∈ ([⟨hostTok ['1'], (['1'], 10)⟩] : List Member),
        (([114, 120, 121, 98] : List Nat).drop 1).take 2 ≠ m.token.map Char.toNat) ∧
    ((udp_chat_handler [([114], [⟨hostTok ['1'], (['1'], 10)⟩])]
        [1, 2, 114, 120, 121, 98] (['4'], 40)).1
      = [([114], [⟨hostTok ['1'], (['1'], 10)⟩])] ∧
      (udp_chat_handler [([114], [⟨hostTok ['1'], (['1'], 10)⟩])]
        [1, 2, 114, 120, 121, 98] (['4'], 40)).2
      = ([⟨hostTok ['1'], (['1'], 10)⟩] : List Member).map (fun m =>
          (m.addr,
            chatEncode (([114, 120, 121, 98] : List Nat).take 1)
              ((([114, 120, 121, 98] : List Nat).drop 1).take 2)
              ((([114, 120, 121, 98] : List Nat).drop 1).drop 2)))) :=
  ⟨⟨by decide, by decide, by decide, by decide, by decide⟩,
    C3_bad_token_still_fanned_out [([114], [⟨hostTok ['1'], (['1'], 10)⟩])]
      1 2 [114, 120, 121, 98] (['4'], 40) [⟨hostTok ['1'], (['1'], 10)⟩]
      (by decide) (by decide) (by decide) (by decide) (by decide)⟩
